import Mathlib

/-!
Shallow embedding of the analog-tile binding layer of `aihwkit`:

* `src/aihwkit/optim/context.py` — the `AnalogContext` binding object
  (weight parameter bound to a tile backend, mode flags, gradient trace,
  reset/copy/device-move operations);
* `src/aihwkit/simulator/tiles/functions.py` — the `AnalogFunction`
  autograd dispatcher (`forward` / `backward`).

Python's mutable object graph is rendered as explicit state passing:
every operation takes the current state and returns the updated one.
Object identity for the context ↔ tile back-reference cycle is broken
by giving each context a numeric `id` and storing `Option Nat` on the
tile side.  The tile backend's numeric routines are external
collaborators (spec §6: capability interface only); they are modelled
abstractly by a `TileOps` record of functions, and every call issued to
the tile is additionally recorded in an event log so that dispatch
order can be stated.
-/

/-- Compute device of a tensor or tile (host vs. accelerator). -/
inductive Device where
  | cpu : Device
  | cuda : Device
deriving DecidableEq, Repr

/-- A tensor, abstracted to the attributes the binding layer inspects:
its element data, its shape, and the device it lives on. -/
structure Tensor where
  data : List Int
  shape : List Nat
  device : Device
deriving DecidableEq, Repr

/-- `Tensor.cpu()`: move to host (identity when already on host). -/
def Tensor.cpu (t : Tensor) : Tensor :=
  { t with device := Device.cpu }

/-- `Tensor.to(device)`: move to the given device. -/
def Tensor.to (t : Tensor) (d : Device) : Tensor :=
  { t with device := d }

/-- `torch.empty_like(t)`: fresh buffer with the shape and device of `t`
(contents are uninitialized; modelled as zeros). -/
def empty_like (t : Tensor) : Tensor :=
  { t with data := List.replicate t.data.length 0 }

/-- Runtime configuration of a tile (`analog_tile.get_runtime()`): the
offload policy flags read by the dispatcher. -/
structure Runtime where
  offload_input : Bool
  offload_gradient : Bool
deriving DecidableEq, Repr

/-- The tile backend state visible to the binding layer (spec §6
capability interface): its weights, device residency, runtime flags,
the back-reference to its bound context (`analog_ctx`, by context id),
and the currently bound delta-weight target. -/
structure Tile where
  weights : Tensor
  is_cuda : Bool
  device : Device
  runtime : Runtime
  analog_ctx : Option Nat
  delta_weights : Option Tensor
deriving DecidableEq, Repr

/-- `tile.ensure_shared_weights(w)`: binds an external tensor as the
authoritative weight buffer for one call (external routine; no state
the binding layer later reads is changed). -/
def Tile.ensure_shared_weights (t : Tile) (_w : Tensor) : Tile :=
  t

/-- `tile.set_delta_weights(buf)`: bind `buf` as the tile's delta-weight
target. -/
def Tile.set_delta_weights (t : Tile) (buf : Tensor) : Tile :=
  { t with delta_weights := some buf }

/-- `tile.reset_delta_weights()`: detach the delta-weight target. -/
def Tile.reset_delta_weights (t : Tile) : Tile :=
  { t with delta_weights := none }

/-- `analog_tile.cuda(device)` (external `toAccelerator`): migrate the
tile to the accelerator. -/
def Tile.cuda (t : Tile) (d : Device) : Tile :=
  { t with is_cuda := true, device := d, weights := t.weights.to d }

/-- `analog_tile.cpu()` (external `toHost`): migrate the tile to host. -/
def Tile.cpuMove (t : Tile) : Tile :=
  { t with is_cuda := false, device := Device.cpu, weights := t.weights.cpu }

/-- The tile backend's numeric routines (external collaborators, spec §6):
forward pass, backward pass and the data an update writes into the bound
delta buffer.  The first `Bool` argument selects the indexed variant. -/
structure TileOps where
  fwd : Bool → Tensor → Bool → Tensor
  bwd : Bool → Tensor → Tensor
  upd : Bool → Tensor → Tensor → List Int

/-- One call issued by the dispatcher to the tile backend, recorded in
order of issue. -/
inductive TileCall where
  | forwardCall (indexed : Bool) (input : Tensor) (is_test : Bool) : TileCall
  | backwardCall (indexed : Bool) (grad : Tensor) : TileCall
  | updateCall (indexed : Bool) (input : Tensor) (grad : Tensor) : TileCall
  | ensureShared (w : Tensor) : TileCall
  | setDelta (buf : Tensor) : TileCall
  | resetDelta : TileCall
deriving DecidableEq, Repr

/-- A plain `torch.nn.Parameter`: a weight tensor with a gradient flag,
carrying no tile binding and no trace. -/
structure Parameter where
  data : Tensor
  requires_grad : Bool
deriving DecidableEq, Repr

/-- `Parameter(data)`: wrap a tensor as a parameter; `requires_grad`
defaults to true. -/
def Parameter.ofTensor (d : Tensor) : Parameter :=
  { data := d, requires_grad := true }

/-- `AnalogContext` (context.py): the binding object.  `id` models the
Python object identity used for the tile's back-reference; `data` and
`requires_grad` are the inherited `Parameter` state; the remaining
fields are set in `__init__`. -/
structure AnalogContext where
  id : Nat
  data : Tensor
  requires_grad : Bool
  analog_tile : Tile
  use_torch_update : Bool
  use_indexed : Bool
  analog_input : List Tensor
  analog_grad_output : List Tensor
deriving DecidableEq, Repr

namespace AnalogContext

/-- `AnalogContext.reset(analog_tile=None)` (context.py lines 92-100):
optionally rebind the tile (setting the tile's `analog_ctx`
back-reference to this context), then clear both traces. -/
def reset (self : AnalogContext) (analog_tile : Option Tile) : AnalogContext :=
  let self' :=
    match analog_tile with
    | some t =>
        { self with analog_tile := { t with analog_ctx := some self.id } }
    | none => self
  { self' with analog_input := [], analog_grad_output := [] }

/-- `AnalogContext.__init__` (context.py lines 68-77): runs after
`__new__` on both construction paths; sets the tile pointer, clears
the flags and traces, and calls `reset(analog_tile)`. -/
def init (self : AnalogContext) (analog_tile : Tile) : AnalogContext :=
  let self' :=
    { self with
      analog_tile := analog_tile
      use_torch_update := false
      use_indexed := false
      analog_input := ([] : List Tensor)
      analog_grad_output := ([] : List Tensor) }
  self'.reset (some analog_tile)

/-- `AnalogContext(analog_tile)` with `parameter=None` (context.py
`__new__` lines 53-58 then `__init__`): fresh path — wraps the tile's
current weights as a new gradient-tracked parameter. -/
def mkFresh (ident : Nat) (analog_tile : Tile) : AnalogContext :=
  let base : AnalogContext :=
    { id := ident
      data := analog_tile.weights
      requires_grad := true
      analog_tile := analog_tile
      use_torch_update := false
      use_indexed := false
      analog_input := []
      analog_grad_output := [] }
  base.init analog_tile

/-- `AnalogContext(analog_tile, parameter)` (context.py `__new__` lines
65-66 then `__init__`): re-attach path — the existing parameter is
re-labeled in place (`parameter.__class__ = cls`), keeping its data and
its `requires_grad` flag, then `__init__` runs on it. -/
def mkAttach (ident : Nat) (analog_tile : Tile) (parameter : Parameter) :
    AnalogContext :=
  let base : AnalogContext :=
    { id := ident
      data := parameter.data
      requires_grad := parameter.requires_grad
      analog_tile := analog_tile
      use_torch_update := false
      use_indexed := false
      analog_input := []
      analog_grad_output := [] }
  base.init analog_tile

/-- `AnalogContext.set_indexed(value)` (context.py lines 79-81). -/
def set_indexed (self : AnalogContext) (value : Bool) : AnalogContext :=
  { self with use_indexed := value }

/-- `AnalogContext.set_data(data)` (context.py lines 83-86):
`self.data.copy_(data)` — in-place copy of the values, keeping the
destination tensor's device. -/
def set_data (self : AnalogContext) (d : Tensor) : AnalogContext :=
  { self with data := { self.data with data := d.data, shape := d.shape } }

/-- `AnalogContext.get_data()` (context.py lines 88-90). -/
def get_data (self : AnalogContext) : Tensor :=
  self.data

/-- `AnalogContext.has_gradient()` (context.py lines 102-104). -/
def has_gradient (self : AnalogContext) : Bool :=
  decide (0 < self.analog_input.length)

/-- `AnalogContext.__copy__` (context.py lines 106-109): returns
`Parameter(self.data)` — a plain, unbound parameter. -/
def copy (self : AnalogContext) : Parameter :=
  Parameter.ofTensor self.data

/-- `AnalogContext.__deepcopy__` (context.py lines 111-113): returns
`Parameter(self.data)` — a plain, unbound parameter. -/
def deepcopy (self : AnalogContext) : Parameter :=
  Parameter.ofTensor self.data

/-- `AnalogContext.cuda(device)` (context.py lines 115-128): when the
tile is not yet on the accelerator, re-read the weights, migrate the
tile, and `reset` to rebind; otherwise no-op. -/
def cuda (self : AnalogContext) (d : Device) : AnalogContext :=
  if self.analog_tile.is_cuda then self
  else
    let data' := self.analog_tile.weights
    let tile' := self.analog_tile.cuda d
    ({ self with data := data', analog_tile := tile' }).reset (some tile')

/-- `AnalogContext.cpu()` (context.py lines 130-143): move `data` to
host unconditionally; when the tile is on the accelerator, migrate it
and `reset` to rebind. -/
def cpu (self : AnalogContext) : AnalogContext :=
  let self' := { self with data := self.data.cpu }
  if self'.analog_tile.is_cuda then
    let tile' := self'.analog_tile.cpuMove
    ({ self' with analog_tile := tile' }).reset (some tile')
  else self'

/-- `AnalogContext.to(device)` (context.py lines 145-174), restricted to
the device-targeting call the binding layer acts on: move `data`, then
migrate to cuda only when the tile is host-resident, or to cpu only
when the tile is on the accelerator. -/
def toDevice (self : AnalogContext) (d : Device) : AnalogContext :=
  let self' := { self with data := self.data.to d }
  match d with
  | Device.cuda =>
      if ¬ self'.analog_tile.is_cuda then self'.cuda Device.cuda else self'
  | Device.cpu =>
      if self'.analog_tile.is_cuda then self'.cpu else self'

end AnalogContext

/-- The autograd call state (`ctx` in functions.py) surviving from
`forward` to `backward`: the optional shared-weights tensor and the
saved input (`ctx.save_for_backward`), possibly host-offloaded. -/
structure FwdCtx where
  shared_weights : Option Tensor
  saved_input : Tensor
deriving DecidableEq, Repr

/-- The five-slot gradient tuple returned by `AnalogFunction.backward`,
one slot per argument of `forward(analog_ctx, analog_tile, input_,
shared_weights, is_test)`. -/
structure BackwardResult where
  grad_analog_ctx : Option Tensor
  grad_analog_tile : Option Tensor
  grad_input : Option Tensor
  grad_shared_weights : Option Tensor
  grad_is_test : Option Tensor
deriving DecidableEq, Repr

namespace AnalogFunction

/-- `AnalogFunction.forward` (functions.py lines 21-64).  The Python
`ctx`, `analog_ctx` and `analog_tile` mutations become the returned
`FwdCtx`, `AnalogContext` and `Tile`; calls issued to the tile backend
are appended to the returned event log.  Returns
(output, updated context, updated tile, saved call state, log). -/
def forward (ops : TileOps) (analog_ctx : AnalogContext) (analog_tile : Tile)
    (input_ : Tensor) (shared_weights : Option Tensor) (is_test : Bool) :
    Tensor × AnalogContext × Tile × FwdCtx × List TileCall :=
  let use_indexed := analog_ctx.use_indexed
  let runtime := analog_tile.runtime
  match shared_weights with
  | some w =>
      let tile1 := analog_tile.ensure_shared_weights w
      let ctx1 := { analog_ctx with use_torch_update := true }
      let out := ops.fwd use_indexed input_ is_test
      let saved0 := if runtime.offload_input then input_.cpu else input_
      (out, ctx1, tile1,
        { shared_weights := some w, saved_input := saved0 },
        [TileCall.ensureShared w, TileCall.forwardCall use_indexed input_ is_test])
  | none =>
      let ctx1 := { analog_ctx with use_torch_update := false }
      let out := ops.fwd use_indexed input_ is_test
      let saved0 := if runtime.offload_input then input_.cpu else input_
      (out, ctx1, analog_tile,
        { shared_weights := none, saved_input := saved0 },
        [TileCall.forwardCall use_indexed input_ is_test])

/-- `AnalogFunction.backward` (functions.py lines 66-115).  The
`analog_ctx` and `analog_tile` arguments are the CURRENT state of the
objects referenced by `ctx.analog_ctx` / `ctx.analog_tile` at the time
of the call (they are mutable Python references, so intervening calls
on the same context are visible here).  In direct mode
(`use_torch_update`) a missing shared-weights tensor makes
`empty_like(None)` raise; this is the `Except.error` case.  Returns
(gradient tuple, updated context, updated tile, log). -/
def backward (ops : TileOps) (ctx : FwdCtx) (analog_ctx : AnalogContext)
    (analog_tile : Tile) (grad_output : Tensor) :
    Except String (BackwardResult × AnalogContext × Tile × List TileCall) :=
  let input_ := ctx.saved_input
  let runtime := analog_tile.runtime
  let use_indexed := analog_ctx.use_indexed
  let (tile1, log1) :=
    match ctx.shared_weights with
    | some w => (analog_tile.ensure_shared_weights w, [TileCall.ensureShared w])
    | none => (analog_tile, [])
  let grad_input := ops.bwd use_indexed grad_output
  let log2 := log1 ++ [TileCall.backwardCall use_indexed grad_output]
  if analog_ctx.use_torch_update then
    let input2 := if runtime.offload_input then input_.to analog_tile.device else input_
    match ctx.shared_weights with
    | none => Except.error "empty_like of None"
    | some w =>
        let buf0 := empty_like w
        let tile2 := tile1.set_delta_weights buf0
        let buf1 := { buf0 with data := ops.upd use_indexed input2 grad_output }
        let tile3 := { tile2 with delta_weights := some buf1 }
        let tile4 := tile3.reset_delta_weights
        let log3 := log2 ++
          [TileCall.setDelta buf0,
           TileCall.updateCall use_indexed input2 grad_output,
           TileCall.resetDelta]
        Except.ok
          ({ grad_analog_ctx := none, grad_analog_tile := none,
             grad_input := some grad_input,
             grad_shared_weights := some buf1, grad_is_test := none },
           analog_ctx, tile4, log3)
  else
    let ctx1 := { analog_ctx with analog_input := analog_ctx.analog_input ++ [input_] }
    let store_gradients := if runtime.offload_gradient then grad_output.cpu else grad_output
    let ctx2 := { ctx1 with
      analog_grad_output := ctx1.analog_grad_output ++ [store_gradients] }
    Except.ok
      ({ grad_analog_ctx := none, grad_analog_tile := none,
         grad_input := some grad_input,
         grad_shared_weights := none, grad_is_test := none },
       ctx2, tile1, log2)

/-- One forward/backward pair on a bound context (no intervening call on
the context between the two), threading context and tile. -/
def runPair (ops : TileOps) (st : AnalogContext × Tile)
    (input_ : Tensor) (shared_weights : Option Tensor) (grad_output : Tensor) :
    Except String (AnalogContext × Tile) :=
  let r := forward ops st.1 st.2 input_ shared_weights false
  match backward ops r.2.2.2.1 r.2.1 r.2.2.1 grad_output with
  | Except.ok (_, c2, t2, _) => Except.ok (c2, t2)
  | Except.error e => Except.error e

/-- A sequence of forward/backward pairs without shared weights and
without an intervening reset. -/
def runPairs (ops : TileOps) (st : AnalogContext × Tile) :
    List (Tensor × Tensor) → Except String (AnalogContext × Tile)
  | [] => Except.ok st
  | p :: ps =>
      match runPair ops st p.1 none p.2 with
      | Except.ok st' => runPairs ops st' ps
      | Except.error e => Except.error e

end AnalogFunction

/-! ### Concrete fixtures used by witnesses and counterexamples -/

/-- A concrete host-resident input tensor. -/
def tenA : Tensor :=
  { data := [1, 2], shape := [2], device := Device.cpu }

/-- A concrete host-resident error tensor. -/
def tenB : Tensor :=
  { data := [3], shape := [1], device := Device.cpu }

/-- A concrete shared-weights tensor. -/
def tenW : Tensor :=
  { data := [5, 6, 7, 8, 9, 10], shape := [2, 3], device := Device.cpu }

/-- A concrete host tile with both offload flags off. -/
def tile0 : Tile :=
  { weights := { data := [5, 6, 7, 8, 9, 10], shape := [2, 3], device := Device.cpu }
    is_cuda := false
    device := Device.cpu
    runtime := { offload_input := false, offload_gradient := false }
    analog_ctx := none
    delta_weights := none }

/-- A concrete accelerator tile whose runtime offloads inputs. -/
def tileCudaOff : Tile :=
  { weights := { data := [5, 6, 7, 8, 9, 10], shape := [2, 3], device := Device.cuda }
    is_cuda := true
    device := Device.cuda
    runtime := { offload_input := true, offload_gradient := false }
    analog_ctx := none
    delta_weights := none }

/-- A concrete instantiation of the external numeric routines. -/
def ops0 : TileOps :=
  { fwd := fun _ t _ => t
    bwd := fun indexed g => { g with data := g.data.map (fun x => if indexed then x + 2 else x + 1) }
    upd := fun _ i g => i.data ++ g.data }

/-- A concrete freshly constructed bound context on `tile0`. -/
def ctx0 : AnalogContext :=
  AnalogContext.mkFresh 0 tile0

/-- Extract the payload of a successful backward call (fixtures only). -/
def okPayload (e : Except String (BackwardResult × AnalogContext × Tile × List TileCall)) :
    BackwardResult × AnalogContext × Tile × List TileCall :=
  match e with
  | Except.ok x => x
  | Except.error _ =>
      ({ grad_analog_ctx := none, grad_analog_tile := none, grad_input := none,
         grad_shared_weights := none, grad_is_test := none }, ctx0, tile0, [])

/-! ### Helper lemmas -/

/-- A forward/backward pair without shared weights always succeeds and
appends exactly one (possibly offloaded) tensor to each trace. -/
lemma runPair_none_spec (ops : TileOps) (st : AnalogContext × Tile) (i g : Tensor) :
    AnalogFunction.runPair ops st i none g =
      Except.ok
        ({ st.1 with
            use_torch_update := false
            analog_input := st.1.analog_input ++
              [if st.2.runtime.offload_input then i.cpu else i]
            analog_grad_output := st.1.analog_grad_output ++
              [if st.2.runtime.offload_gradient then g.cpu else g] },
         st.2) :=
  rfl

/-- Iterating forward/backward pairs without shared weights always
succeeds, grows each trace by one element per pair, and leaves the tile
unchanged. -/
lemma runPairs_none_spec (ops : TileOps) (ps : List (Tensor × Tensor)) :
    ∀ st : AnalogContext × Tile, ∃ st' : AnalogContext × Tile,
      AnalogFunction.runPairs ops st ps = Except.ok st' ∧
      st'.1.analog_input.length = st.1.analog_input.length + ps.length ∧
      st'.1.analog_grad_output.length = st.1.analog_grad_output.length + ps.length ∧
      st'.2 = st.2 := by
  induction ps with
  | nil =>
      intro st
      exact ⟨st, rfl, by simp, by simp, rfl⟩
  | cons p ps ih =>
      intro st
      rw [AnalogFunction.runPairs, runPair_none_spec]
      obtain ⟨st', h1, h2, h3, h4⟩ := ih
        ({ st.1 with
            use_torch_update := false
            analog_input := st.1.analog_input ++
              [if st.2.runtime.offload_input then p.1.cpu else p.1]
            analog_grad_output := st.1.analog_grad_output ++
              [if st.2.runtime.offload_gradient then p.2.cpu else p.2] },
         st.2)
      dsimp only at h2 h3
      refine ⟨st', h1, ?_, ?_, h4⟩
      · simp only [List.length_append, List.length_cons, List.length_nil] at h2 ⊢
        omega
      · simp only [List.length_append, List.length_cons, List.length_nil] at h3 ⊢
        omega

/-! ### C1 -/

/-- C1: for every sequence of N forward/backward pairs on one bound
context, with no intervening reset and no shared weights, after the Nth
backward both `input_trace` (`analog_input`) and `error_trace`
(`analog_grad_output`) have length exactly N, and `has_gradient()`
returns true for every N ≥ 1. -/
theorem C1_deferred_trace_growth (ops : TileOps) (ctx : AnalogContext) (tile : Tile)
    (ps : List (Tensor × Tensor))
    (h1 : ctx.analog_input = []) (h2 : ctx.analog_grad_output = []) :
    ∃ st' : AnalogContext × Tile,
      AnalogFunction.runPairs ops (ctx, tile) ps = Except.ok st' ∧
      st'.1.analog_input.length = ps.length ∧
      st'.1.analog_grad_output.length = ps.length ∧
      (1 ≤ ps.length → st'.1.has_gradient = true) := by
  obtain ⟨st', hok, hl1, hl2, _⟩ := runPairs_none_spec ops ps (ctx, tile)
  rw [h1] at hl1
  rw [h2] at hl2
  simp only [List.length_nil, Nat.zero_add] at hl1 hl2
  refine ⟨st', hok, hl1, hl2, ?_⟩
  intro hn
  simp only [AnalogContext.has_gradient, decide_eq_true_eq]
  omega

/-- Witness for C1 at N = 2 concrete pairs on a fresh context. -/
theorem C1_deferred_trace_growth_witness :
    ∃ st' : AnalogContext × Tile,
      AnalogFunction.runPairs ops0 (ctx0, tile0) [(tenA, tenB), (tenA, tenB)] =
        Except.ok st' ∧
      st'.1.analog_input.length = 2 ∧
      st'.1.analog_grad_output.length = 2 ∧
      (1 ≤ ([(tenA, tenB), (tenA, tenB)] : List (Tensor × Tensor)).length →
        st'.1.has_gradient = true) :=
  C1_deferred_trace_growth ops0 ctx0 tile0 [(tenA, tenB), (tenA, tenB)] rfl rfl

/-- Characterization of `forward` with shared weights: sets
`use_torch_update`, issues ensure-shared then the forward routine, and
saves the (possibly host-offloaded) input. -/
lemma forward_spec_some (ops : TileOps) (c : AnalogContext) (tile : Tile)
    (i w : Tensor) (it : Bool) :
    AnalogFunction.forward ops c tile i (some w) it =
      (ops.fwd c.use_indexed i it,
       { c with use_torch_update := true },
       tile,
       { shared_weights := some w,
         saved_input := if tile.runtime.offload_input then i.cpu else i },
       [TileCall.ensureShared w, TileCall.forwardCall c.use_indexed i it]) :=
  rfl

/-- Characterization of `forward` without shared weights: clears
`use_torch_update`, issues only the forward routine, and saves the
(possibly host-offloaded) input. -/
lemma forward_spec_none (ops : TileOps) (c : AnalogContext) (tile : Tile)
    (i : Tensor) (it : Bool) :
    AnalogFunction.forward ops c tile i none it =
      (ops.fwd c.use_indexed i it,
       { c with use_torch_update := false },
       tile,
       { shared_weights := none,
         saved_input := if tile.runtime.offload_input then i.cpu else i },
       [TileCall.forwardCall c.use_indexed i it]) :=
  rfl

/-- Characterization of `backward` in deferred mode with no saved
shared-weights tensor. -/
lemma backward_spec_deferred_none (ops : TileOps) (fctx : FwdCtx)
    (c : AnalogContext) (tile : Tile) (g : Tensor)
    (hsw : fctx.shared_weights = none) (hut : c.use_torch_update = false) :
    AnalogFunction.backward ops fctx c tile g =
      Except.ok
        ({ grad_analog_ctx := none, grad_analog_tile := none,
           grad_input := some (ops.bwd c.use_indexed g),
           grad_shared_weights := none, grad_is_test := none },
         { c with
             analog_input := c.analog_input ++ [fctx.saved_input]
             analog_grad_output := c.analog_grad_output ++
               [if tile.runtime.offload_gradient then g.cpu else g] },
         tile,
         [TileCall.backwardCall c.use_indexed g]) := by
  unfold AnalogFunction.backward
  rw [hsw, hut]
  rfl

/-- Characterization of `backward` in deferred mode with a stale saved
shared-weights tensor (the ensure-shared call is still issued). -/
lemma backward_spec_deferred_some (ops : TileOps) (fctx : FwdCtx)
    (c : AnalogContext) (tile : Tile) (g w : Tensor)
    (hsw : fctx.shared_weights = some w) (hut : c.use_torch_update = false) :
    AnalogFunction.backward ops fctx c tile g =
      Except.ok
        ({ grad_analog_ctx := none, grad_analog_tile := none,
           grad_input := some (ops.bwd c.use_indexed g),
           grad_shared_weights := none, grad_is_test := none },
         { c with
             analog_input := c.analog_input ++ [fctx.saved_input]
             analog_grad_output := c.analog_grad_output ++
               [if tile.runtime.offload_gradient then g.cpu else g] },
         tile,
         [TileCall.ensureShared w, TileCall.backwardCall c.use_indexed g]) := by
  unfold AnalogFunction.backward
  rw [hsw, hut]
  rfl

/-- Characterization of `backward` in direct mode with a saved
shared-weights tensor. -/
lemma backward_spec_direct (ops : TileOps) (fctx : FwdCtx)
    (c : AnalogContext) (tile : Tile) (g w : Tensor)
    (hsw : fctx.shared_weights = some w) (hut : c.use_torch_update = true) :
    AnalogFunction.backward ops fctx c tile g =
      Except.ok
        ({ grad_analog_ctx := none, grad_analog_tile := none,
           grad_input := some (ops.bwd c.use_indexed g),
           grad_shared_weights := some
             { empty_like w with
                 data := ops.upd c.use_indexed
                   (if tile.runtime.offload_input
                    then fctx.saved_input.to tile.device
                    else fctx.saved_input) g },
           grad_is_test := none },
         c,
         { tile with delta_weights := none },
         [TileCall.ensureShared w,
          TileCall.backwardCall c.use_indexed g,
          TileCall.setDelta (empty_like w),
          TileCall.updateCall c.use_indexed
            (if tile.runtime.offload_input
             then fctx.saved_input.to tile.device
             else fctx.saved_input) g,
          TileCall.resetDelta]) := by
  unfold AnalogFunction.backward
  rw [hsw, hut]
  rfl

/-- Characterization of `backward` in direct mode with no saved
shared-weights tensor: `empty_like(None)` raises. -/
lemma backward_spec_direct_none (ops : TileOps) (fctx : FwdCtx)
    (c : AnalogContext) (tile : Tile) (g : Tensor)
    (hsw : fctx.shared_weights = none) (hut : c.use_torch_update = true) :
    AnalogFunction.backward ops fctx c tile g =
      Except.error "empty_like of None" := by
  unfold AnalogFunction.backward
  rw [hsw, hut]
  rfl

/-! ### C2 -/

/-- The spec's trace invariant: the two traces always have equal length. -/
def traceInv (c : AnalogContext) : Prop :=
  c.analog_input.length = c.analog_grad_output.length

/-- `cuda` preserves the trace invariant. -/
lemma traceInv_cuda (c : AnalogContext) (dev : Device) (h : traceInv c) :
    traceInv (c.cuda dev) := by
  unfold AnalogContext.cuda
  split
  · exact h
  · rfl

/-- `cpu` preserves the trace invariant. -/
lemma traceInv_cpu (c : AnalogContext) (h : traceInv c) :
    traceInv c.cpu := by
  unfold AnalogContext.cpu
  dsimp only
  split
  · rfl
  · exact h

/-- `toDevice` preserves the trace invariant. -/
lemma traceInv_toDevice (c : AnalogContext) (dev : Device) (h : traceInv c) :
    traceInv (c.toDevice dev) := by
  unfold AnalogContext.toDevice
  cases dev
  · dsimp only
    split
    · exact traceInv_cpu _ h
    · exact h
  · dsimp only
    split
    · exact traceInv_cuda _ _ h
    · exact h

/-- C2: for every operation of the binding context and dispatcher
(construct, reset, set_indexed, set_data, copy/deep-copy — which return
a traceless plain parameter and so preserve it trivially — device
moves, forward, backward in either mode), the invariant
`len(input_trace) == len(error_trace)` holds after the operation
whenever it held before; the traces grow by exactly one element pair
per deferred-mode backward call, and direct-mode backward leaves them
untouched (clearing happens only inside `reset`, which every clearing
path calls). -/
theorem C2_trace_length_invariant
    (ops : TileOps) (c : AnalogContext) (tile : Tile) (p : Parameter) (ident : Nat)
    (o : Option Tile) (b it : Bool) (d i g : Tensor) (dev : Device)
    (sw : Option Tensor) (fctx : FwdCtx)
    (r : BackwardResult) (c2 : AnalogContext) (t2 : Tile) (l : List TileCall)
    (hInv : traceInv c)
    (hbw : AnalogFunction.backward ops fctx c tile g = Except.ok (r, c2, t2, l)) :
    traceInv (AnalogContext.mkFresh ident tile) ∧
    traceInv (AnalogContext.mkAttach ident tile p) ∧
    traceInv (c.reset o) ∧
    traceInv (c.set_indexed b) ∧
    traceInv (c.set_data d) ∧
    traceInv (c.cuda dev) ∧
    traceInv c.cpu ∧
    traceInv (c.toDevice dev) ∧
    traceInv (AnalogFunction.forward ops c tile i sw it).2.1 ∧
    traceInv c2 ∧
    (c.use_torch_update = false →
      c2.analog_input.length = c.analog_input.length + 1 ∧
      c2.analog_grad_output.length = c.analog_grad_output.length + 1) ∧
    (c.use_torch_update = true →
      c2.analog_input = c.analog_input ∧
      c2.analog_grad_output = c.analog_grad_output) := by
  have hfwd : traceInv (AnalogFunction.forward ops c tile i sw it).2.1 := by
    cases sw
    · exact hInv
    · exact hInv
  have hreset : traceInv (c.reset o) := by
    cases o <;> rfl
  refine ⟨rfl, rfl, hreset, hInv, hInv, traceInv_cuda c dev hInv,
    traceInv_cpu c hInv, traceInv_toDevice c dev hInv, hfwd, ?_⟩
  unfold traceInv at hInv
  cases hut : c.use_torch_update
  · cases hsw : fctx.shared_weights
    · rw [backward_spec_deferred_none ops fctx c tile g hsw hut] at hbw
      simp only [Except.ok.injEq, Prod.mk.injEq] at hbw
      obtain ⟨-, hc2, -, -⟩ := hbw
      subst hc2
      refine ⟨?_, fun _ => ⟨?_, ?_⟩, fun hcontr => ?_⟩
      · unfold traceInv
        simp only [List.length_append, List.length_cons, List.length_nil]
        omega
      · simp only [List.length_append, List.length_cons, List.length_nil]
      · simp only [List.length_append, List.length_cons, List.length_nil]
      · exact absurd hcontr (by simp)
    · rw [backward_spec_deferred_some ops fctx c tile g _ hsw hut] at hbw
      simp only [Except.ok.injEq, Prod.mk.injEq] at hbw
      obtain ⟨-, hc2, -, -⟩ := hbw
      subst hc2
      refine ⟨?_, fun _ => ⟨?_, ?_⟩, fun hcontr => ?_⟩
      · unfold traceInv
        simp only [List.length_append, List.length_cons, List.length_nil]
        omega
      · simp only [List.length_append, List.length_cons, List.length_nil]
      · simp only [List.length_append, List.length_cons, List.length_nil]
      · exact absurd hcontr (by simp)
  · cases hsw : fctx.shared_weights
    · rw [backward_spec_direct_none ops fctx c tile g hsw hut] at hbw
      simp at hbw
    · rw [backward_spec_direct ops fctx c tile g _ hsw hut] at hbw
      simp only [Except.ok.injEq, Prod.mk.injEq] at hbw
      obtain ⟨-, hc2, -, -⟩ := hbw
      subst hc2
      exact ⟨hInv, fun hcontr => absurd hcontr (by simp), fun _ => ⟨rfl, rfl⟩⟩

/-- A concrete saved call state from a forward without shared weights. -/
def fctx0 : FwdCtx :=
  { shared_weights := none, saved_input := tenA }

/-- Concrete payload of a successful deferred-mode backward call. -/
def bwPayload0 : BackwardResult × AnalogContext × Tile × List TileCall :=
  okPayload (AnalogFunction.backward ops0 fctx0 ctx0 tile0 tenB)

/-- Witness for C2 on a fresh context and a concrete deferred backward. -/
theorem C2_trace_length_invariant_witness :
    traceInv (AnalogContext.mkFresh 1 tile0) ∧
    traceInv (AnalogContext.mkAttach 1 tile0 (Parameter.ofTensor tenA)) ∧
    traceInv (ctx0.reset (some tile0)) ∧
    traceInv (ctx0.set_indexed true) ∧
    traceInv (ctx0.set_data tenA) ∧
    traceInv (ctx0.cuda Device.cuda) ∧
    traceInv ctx0.cpu ∧
    traceInv (ctx0.toDevice Device.cuda) ∧
    traceInv (AnalogFunction.forward ops0 ctx0 tile0 tenA none false).2.1 ∧
    traceInv bwPayload0.2.1 ∧
    (ctx0.use_torch_update = false →
      bwPayload0.2.1.analog_input.length = ctx0.analog_input.length + 1 ∧
      bwPayload0.2.1.analog_grad_output.length = ctx0.analog_grad_output.length + 1) ∧
    (ctx0.use_torch_update = true →
      bwPayload0.2.1.analog_input = ctx0.analog_input ∧
      bwPayload0.2.1.analog_grad_output = ctx0.analog_grad_output) :=
  C2_trace_length_invariant ops0 ctx0 tile0 (Parameter.ofTensor tenA) 1
    (some tile0) true false tenA tenA tenB Device.cuda none fctx0
    bwPayload0.1 bwPayload0.2.1 bwPayload0.2.2.1 bwPayload0.2.2.2 rfl rfl

/-! ### C3 -/

/-- C3: for a forward/backward pair with a shared-weights tensor `w` on
a context with empty traces, the traces stay empty, the returned weight
gradient has `w`'s shape, and the tile's delta-weight target is set
(setDelta) before the update call and detached (resetDelta) before
backward returns, the final delta target being `none`. -/
theorem C3_direct_mode_shape_and_delta (ops : TileOps) (ctx : AnalogContext)
    (tile : Tile) (w inp g : Tensor)
    (h1 : ctx.analog_input = []) (h2 : ctx.analog_grad_output = []) :
    ∃ r c2 t2 l,
      AnalogFunction.backward ops
        (AnalogFunction.forward ops ctx tile inp (some w) false).2.2.2.1
        (AnalogFunction.forward ops ctx tile inp (some w) false).2.1
        (AnalogFunction.forward ops ctx tile inp (some w) false).2.2.1
        g = Except.ok (r, c2, t2, l) ∧
      c2.analog_input = [] ∧
      c2.analog_grad_output = [] ∧
      r.grad_shared_weights.map Tensor.shape = some w.shape ∧
      t2.delta_weights = none ∧
      (∃ inp2,
        l = [TileCall.ensureShared w,
             TileCall.backwardCall ctx.use_indexed g,
             TileCall.setDelta (empty_like w),
             TileCall.updateCall ctx.use_indexed inp2 g,
             TileCall.resetDelta]) := by
  rw [forward_spec_some]
  dsimp only
  refine ⟨_, _, _, _,
    backward_spec_direct ops
      { shared_weights := some w,
        saved_input := if tile.runtime.offload_input then inp.cpu else inp }
      { ctx with use_torch_update := true } tile g w rfl rfl,
    h1, h2, rfl, rfl, ⟨_, rfl⟩⟩

/-- Witness for C3 on a fresh context and concrete tensors. -/
theorem C3_direct_mode_shape_and_delta_witness :
    ∃ r c2 t2 l,
      AnalogFunction.backward ops0
        (AnalogFunction.forward ops0 ctx0 tile0 tenA (some tenW) false).2.2.2.1
        (AnalogFunction.forward ops0 ctx0 tile0 tenA (some tenW) false).2.1
        (AnalogFunction.forward ops0 ctx0 tile0 tenA (some tenW) false).2.2.1
        tenB = Except.ok (r, c2, t2, l) ∧
      c2.analog_input = [] ∧
      c2.analog_grad_output = [] ∧
      r.grad_shared_weights.map Tensor.shape = some tenW.shape ∧
      t2.delta_weights = none ∧
      (∃ inp2,
        l = [TileCall.ensureShared tenW,
             TileCall.backwardCall ctx0.use_indexed tenB,
             TileCall.setDelta (empty_like tenW),
             TileCall.updateCall ctx0.use_indexed inp2 tenB,
             TileCall.resetDelta]) :=
  C3_direct_mode_shape_and_delta ops0 ctx0 tile0 tenW tenA tenB rfl rfl

/-! ### C4 -/

/-- C4: every successful backward call returns, in the gradient slot of
the input tensor, exactly the result of the tile's (indexed or plain)
backward routine, and issues that routine, in both update modes. -/
theorem C4_input_gradient_always (ops : TileOps) (fctx : FwdCtx)
    (c : AnalogContext) (tile : Tile) (g : Tensor)
    (r : BackwardResult) (c2 : AnalogContext) (t2 : Tile) (l : List TileCall)
    (hbw : AnalogFunction.backward ops fctx c tile g = Except.ok (r, c2, t2, l)) :
    r.grad_input = some (ops.bwd c.use_indexed g) ∧
    TileCall.backwardCall c.use_indexed g ∈ l := by
  cases hut : c.use_torch_update
  · cases hsw : fctx.shared_weights
    · rw [backward_spec_deferred_none ops fctx c tile g hsw hut] at hbw
      simp only [Except.ok.injEq, Prod.mk.injEq] at hbw
      obtain ⟨hr, -, -, hl⟩ := hbw
      subst hr
      subst hl
      exact ⟨rfl, by simp⟩
    · rw [backward_spec_deferred_some ops fctx c tile g _ hsw hut] at hbw
      simp only [Except.ok.injEq, Prod.mk.injEq] at hbw
      obtain ⟨hr, -, -, hl⟩ := hbw
      subst hr
      subst hl
      exact ⟨rfl, by simp⟩
  · cases hsw : fctx.shared_weights
    · rw [backward_spec_direct_none ops fctx c tile g hsw hut] at hbw
      simp at hbw
    · rw [backward_spec_direct ops fctx c tile g _ hsw hut] at hbw
      simp only [Except.ok.injEq, Prod.mk.injEq] at hbw
      obtain ⟨hr, -, -, hl⟩ := hbw
      subst hr
      subst hl
      exact ⟨rfl, by simp⟩

/-- A concrete saved call state from a forward with shared weights. -/
def fctxW : FwdCtx :=
  { shared_weights := some tenW, saved_input := tenA }

/-- A concrete context in direct-update mode. -/
def ctxT : AnalogContext :=
  { ctx0 with use_torch_update := true }

/-- Concrete payload of a successful direct-mode backward call. -/
def bwPayloadT : BackwardResult × AnalogContext × Tile × List TileCall :=
  okPayload (AnalogFunction.backward ops0 fctxW ctxT tile0 tenB)

/-- Witness for C4 on a concrete direct-mode backward. -/
theorem C4_input_gradient_always_witness :
    bwPayloadT.1.grad_input = some (ops0.bwd ctxT.use_indexed tenB) ∧
    TileCall.backwardCall ctxT.use_indexed tenB ∈ bwPayloadT.2.2.2 :=
  C4_input_gradient_always ops0 fctxW ctxT tile0 tenB
    bwPayloadT.1 bwPayloadT.2.1 bwPayloadT.2.2.1 bwPayloadT.2.2.2 rfl

/-! ### C5 -/

/-- Counterexample to C5: on an accelerator tile whose runtime offloads
inputs, a deferred-mode backward appends the HOST-resident saved input
to `input_trace`; it is not migrated back to the tile's compute device
(the migration in functions.py lines 92-93 sits inside the
`use_torch_update` branch only). -/
theorem C5_counterexample :
    tileCudaOff.runtime.offload_input = true ∧
    ctx0.use_torch_update = false ∧
    (okPayload (AnalogFunction.backward ops0
        { shared_weights := none, saved_input := tenA }
        ctx0 tileCudaOff tenB)).2.1.analog_input.map Tensor.device =
      [Device.cpu] ∧
    tileCudaOff.device = Device.cuda ∧
    Device.cpu ≠ Device.cuda := by
  refine ⟨rfl, rfl, rfl, rfl, ?_⟩
  decide

/-- C5 amended: the saved input is migrated back onto the tile's
compute device only in DIRECT mode (where the update routine then
receives the device-resident input); in deferred mode the saved —
possibly host-offloaded — input is appended to `input_trace` exactly
as saved. -/
theorem C5_migration_only_in_direct_mode (ops : TileOps) (fctx : FwdCtx)
    (c : AnalogContext) (tile : Tile) (g w : Tensor)
    (r : BackwardResult) (c2 : AnalogContext) (t2 : Tile) (l : List TileCall)
    (hbw : AnalogFunction.backward ops fctx c tile g = Except.ok (r, c2, t2, l)) :
    (c.use_torch_update = false →
      c2.analog_input = c.analog_input ++ [fctx.saved_input]) ∧
    (c.use_torch_update = true → fctx.shared_weights = some w →
      tile.runtime.offload_input = true →
      TileCall.updateCall c.use_indexed (fctx.saved_input.to tile.device) g ∈ l) := by
  cases hut : c.use_torch_update
  · cases hsw : fctx.shared_weights
    · rw [backward_spec_deferred_none ops fctx c tile g hsw hut] at hbw
      simp only [Except.ok.injEq, Prod.mk.injEq] at hbw
      obtain ⟨-, hc2, -, -⟩ := hbw
      subst hc2
      exact ⟨fun _ => rfl, fun hcontr => absurd hcontr (by simp)⟩
    · rw [backward_spec_deferred_some ops fctx c tile g _ hsw hut] at hbw
      simp only [Except.ok.injEq, Prod.mk.injEq] at hbw
      obtain ⟨-, hc2, -, -⟩ := hbw
      subst hc2
      exact ⟨fun _ => rfl, fun hcontr => absurd hcontr (by simp)⟩
  · cases hsw : fctx.shared_weights
    · rw [backward_spec_direct_none ops fctx c tile g hsw hut] at hbw
      simp at hbw
    · rw [backward_spec_direct ops fctx c tile g _ hsw hut] at hbw
      simp only [Except.ok.injEq, Prod.mk.injEq] at hbw
      obtain ⟨-, -, -, hl⟩ := hbw
      subst hl
      refine ⟨fun hcontr => absurd hcontr (by simp), fun _ hw hoff => ?_⟩
      injection hw with hw
      subst hw
      simp only [hoff]
      simp

/-- Concrete payload of a direct-mode backward on an offloading tile. -/
def bwPayloadOff : BackwardResult × AnalogContext × Tile × List TileCall :=
  okPayload (AnalogFunction.backward ops0 fctxW ctxT tileCudaOff tenB)

/-- Witness for the amended C5 on a concrete direct-mode backward with
input offload enabled. -/
theorem C5_migration_only_in_direct_mode_witness :
    (ctxT.use_torch_update = false →
      bwPayloadOff.2.1.analog_input = ctxT.analog_input ++ [fctxW.saved_input]) ∧
    (ctxT.use_torch_update = true → fctxW.shared_weights = some tenW →
      tileCudaOff.runtime.offload_input = true →
      TileCall.updateCall ctxT.use_indexed
        (fctxW.saved_input.to tileCudaOff.device) tenB ∈ bwPayloadOff.2.2.2) :=
  C5_migration_only_in_direct_mode ops0 fctxW ctxT tileCudaOff tenB tenW
    bwPayloadOff.1 bwPayloadOff.2.1 bwPayloadOff.2.2.1 bwPayloadOff.2.2.2 rfl

/-! ### C6 -/

/-- C6: `reset` always leaves both traces empty; with a tile argument,
the context's `tile_ref` becomes that tile and the tile's
back-reference (`analog_ctx`) points to this same context. -/
theorem C6_reset_clears_and_rebinds (c : AnalogContext) (t : Tile) (o : Option Tile) :
    (c.reset o).analog_input = [] ∧
    (c.reset o).analog_grad_output = [] ∧
    (c.reset (some t)).analog_tile = { t with analog_ctx := some c.id } ∧
    (c.reset (some t)).analog_tile.analog_ctx = some (c.reset (some t)).id := by
  refine ⟨?_, ?_, rfl, rfl⟩ <;> cases o <;> rfl

/-! ### C7 -/

/-- C7: both copy and deep-copy return a plain `Parameter` (by the
return type: no tile reference and no trace fields), gradient-tracked
by the `Parameter` default, whose data is the source context's data at
the moment of copying. -/
theorem C7_copy_yields_unbound_parameter (c : AnalogContext) :
    c.copy = Parameter.ofTensor c.data ∧
    c.deepcopy = Parameter.ofTensor c.data ∧
    c.copy.data = c.data ∧
    c.deepcopy.data = c.data ∧
    c.copy.requires_grad = true ∧
    c.deepcopy.requires_grad = true :=
  ⟨rfl, rfl, rfl, rfl, rfl, rfl⟩

/-! ### C8 -/

/-- On a host-resident tile, `cpu` only re-moves the data tensor to
host and touches nothing else. -/
lemma cpu_host (c : AnalogContext) (h : c.analog_tile.is_cuda = false) :
    c.cpu = { c with data := c.data.cpu } := by
  unfold AnalogContext.cpu
  dsimp only
  simp [h]

/-- On a host-resident tile, `to(cpu)` only re-moves the data tensor to
host and touches nothing else. -/
lemma toDevice_cpu_host (c : AnalogContext) (h : c.analog_tile.is_cuda = false) :
    c.toDevice Device.cpu = { c with data := c.data.to Device.cpu } := by
  unfold AnalogContext.toDevice
  dsimp only
  simp [h]

/-- C8: when the bound tile is already host-resident, a to-host move
(`cpu` or a generic `to` targeting host) leaves both traces, both mode
flags, and the tile identity unchanged — no rebind happens — and
re-issuing either no-op move is idempotent. -/
theorem C8_host_move_is_noop (c : AnalogContext)
    (h : c.analog_tile.is_cuda = false) :
    c.cpu.analog_input = c.analog_input ∧
    c.cpu.analog_grad_output = c.analog_grad_output ∧
    c.cpu.use_indexed = c.use_indexed ∧
    c.cpu.use_torch_update = c.use_torch_update ∧
    c.cpu.analog_tile = c.analog_tile ∧
    (c.toDevice Device.cpu).analog_input = c.analog_input ∧
    (c.toDevice Device.cpu).analog_grad_output = c.analog_grad_output ∧
    (c.toDevice Device.cpu).use_indexed = c.use_indexed ∧
    (c.toDevice Device.cpu).use_torch_update = c.use_torch_update ∧
    (c.toDevice Device.cpu).analog_tile = c.analog_tile ∧
    c.cpu.cpu = c.cpu ∧
    (c.toDevice Device.cpu).toDevice Device.cpu = c.toDevice Device.cpu := by
  have hc := cpu_host c h
  have ht := toDevice_cpu_host c h
  have hc2 := cpu_host { c with data := c.data.cpu } h
  have ht2 := toDevice_cpu_host { c with data := c.data.to Device.cpu } h
  rw [hc, ht, hc2, ht2]
  exact ⟨rfl, rfl, rfl, rfl, rfl, rfl, rfl, rfl, rfl, rfl, rfl, rfl⟩

/-- Witness for C8 on a concrete host-resident context. -/
theorem C8_host_move_is_noop_witness :
    ctx0.cpu.analog_input = ctx0.analog_input ∧
    ctx0.cpu.analog_grad_output = ctx0.analog_grad_output ∧
    ctx0.cpu.use_indexed = ctx0.use_indexed ∧
    ctx0.cpu.use_torch_update = ctx0.use_torch_update ∧
    ctx0.cpu.analog_tile = ctx0.analog_tile ∧
    (ctx0.toDevice Device.cpu).analog_input = ctx0.analog_input ∧
    (ctx0.toDevice Device.cpu).analog_grad_output = ctx0.analog_grad_output ∧
    (ctx0.toDevice Device.cpu).use_indexed = ctx0.use_indexed ∧
    (ctx0.toDevice Device.cpu).use_torch_update = ctx0.use_torch_update ∧
    (ctx0.toDevice Device.cpu).analog_tile = ctx0.analog_tile ∧
    ctx0.cpu.cpu = ctx0.cpu ∧
    (ctx0.toDevice Device.cpu).toDevice Device.cpu = ctx0.toDevice Device.cpu :=
  C8_host_move_is_noop ctx0 rfl

/-! ### C9 -/

/-- Counterexample to C9: the re-attach construction path keeps the
supplied parameter's `requires_grad` flag (`parameter.__class__ = cls`
re-labels in place and `__init__` never sets it), so attaching a
non-gradient-tracked parameter yields a context that is not
gradient-tracked. -/
theorem C9_counterexample :
    (AnalogContext.mkAttach 2 tile0
      { data := tenA, requires_grad := false }).requires_grad = false ∧
    ¬ (AnalogContext.mkAttach 2 tile0
      { data := tenA, requires_grad := false }).requires_grad = true := by
  exact ⟨rfl, by decide⟩

/-- C9 amended: the fresh construction path yields a gradient-tracked
context whose data is the tile's current weights; the re-attach path
keeps the supplied parameter's data and its `requires_grad` flag (so it
is gradient-tracked exactly when the parameter was); on both paths
`tile_ref` is the supplied tile and the bidirectional binding is
established. -/
theorem C9_construction_binding (ident : Nat) (t : Tile) (p : Parameter) :
    (AnalogContext.mkFresh ident t).requires_grad = true ∧
    (AnalogContext.mkFresh ident t).data = t.weights ∧
    (AnalogContext.mkFresh ident t).analog_tile = { t with analog_ctx := some ident } ∧
    (AnalogContext.mkFresh ident t).analog_tile.analog_ctx =
      some (AnalogContext.mkFresh ident t).id ∧
    (AnalogContext.mkAttach ident t p).requires_grad = p.requires_grad ∧
    (AnalogContext.mkAttach ident t p).data = p.data ∧
    (AnalogContext.mkAttach ident t p).analog_tile = { t with analog_ctx := some ident } ∧
    (AnalogContext.mkAttach ident t p).analog_tile.analog_ctx =
      some (AnalogContext.mkAttach ident t p).id :=
  ⟨rfl, rfl, rfl, rfl, rfl, rfl, rfl, rfl⟩

/-! ### C10 -/

/-- C10: the indexed/non-indexed and direct/deferred routing of a
backward call follows the context's flags AS THEY STAND at backward
time, not values captured in the matching forward's saved state.
Part 1: after forward₁ with shared weights and forward₂ without (same
context), the backward of forward₁'s saved state — whose saved
`shared_weights` is still `some w` — runs in deferred mode and appends
to the trace.  Part 2: a `set_indexed` issued after forward re-routes
that forward's backward to the routine selected by the new flag. -/
theorem C10_flags_read_at_backward_time (ops : TileOps) (c0 : AnalogContext)
    (t0 : Tile) (i1 i2 w g : Tensor) (b : Bool) :
    (let f1 := AnalogFunction.forward ops c0 t0 i1 (some w) false
     let f2 := AnalogFunction.forward ops f1.2.1 f1.2.2.1 i2 none false
     f1.2.2.2.1.shared_weights = some w ∧
     ∃ r c2 t2 l,
       AnalogFunction.backward ops f1.2.2.2.1 f2.2.1 f2.2.2.1 g =
         Except.ok (r, c2, t2, l) ∧
       r.grad_shared_weights = none ∧
       c2.analog_input = f2.2.1.analog_input ++ [f1.2.2.2.1.saved_input]) ∧
    (let f3 := AnalogFunction.forward ops c0 t0 i1 none false
     let c3 := f3.2.1.set_indexed b
     ∃ r c2 t2 l,
       AnalogFunction.backward ops f3.2.2.2.1 c3 f3.2.2.1 g =
         Except.ok (r, c2, t2, l) ∧
       r.grad_input = some (ops.bwd b g) ∧
       l = [TileCall.backwardCall b g]) := by
  constructor
  · dsimp only
    refine ⟨rfl, _, _, _, _,
      backward_spec_deferred_some ops _ _ _ g w rfl rfl, rfl, rfl⟩
  · dsimp only
    refine ⟨_, _, _, _,
      backward_spec_deferred_none ops _ _ _ g rfl rfl, rfl, rfl⟩
